import Mathlib

/-!
Verification of the invoice-to-emission-factor mapping engine in
`cases/case-2-rag-hallucination/case2_export.py`.

Python strings are modelled as `List Char` (`PyStr`).  Python numeric
values (`float`) are modelled as exact rationals `ℚ`; `None`-able values
are modelled as `Option`.  Python string primitives (`strip`, `lower`,
`replace`, substring `in`, `split`, `join`) are modelled below as
executable functions.  Restrictions of the model, each noted at its
definition: `str.lower` covers ASCII and Latin-1; `str.strip` and
`str.split()` treat the ASCII whitespace characters; the NFKD table of
`unicodedata.normalize` covers the Latin-1 repertoire actually used by
the program's static tables.  Python's stable `list.sort` is modelled by
the stable `List.insertionSort`.
-/

abbrev PyStr := List Char

def pstr (s : String) : PyStr := s.data

/-- ASCII whitespace, the characters stripped by `str.strip()` and split
on by `str.split()` (the model's whitespace repertoire). -/
def isPySpace (c : Char) : Bool :=
  c == ' ' || c == '\t' || c == '\n' || c == '\r' || c == '\x0b' || c == '\x0c'

/-- `str.strip()`: remove leading and trailing whitespace. -/
def pyStrip (s : PyStr) : PyStr :=
  (((s.dropWhile isPySpace).reverse).dropWhile isPySpace).reverse

/-- `str.lower()`, restricted to ASCII `A`-`Z` and Latin-1 `À`-`Þ`
(except `×`), which covers every character the program's tables use. -/
def pyCharLower (c : Char) : Char :=
  if 'A' ≤ c ∧ c ≤ 'Z' then Char.ofNat (c.toNat + 32)
  else if 'À' ≤ c ∧ c ≤ 'Þ' ∧ c ≠ '×' then Char.ofNat (c.toNat + 32)
  else c

def pyLower (s : PyStr) : PyStr := s.map pyCharLower

/-- Python substring test `needle in hay`. -/
def pyIn (needle : PyStr) : PyStr → Bool
  | [] => needle.isEmpty
  | c :: rest => needle.isPrefixOf (c :: rest) || pyIn needle rest

/-- One step of `str.replace`: fuelled scan (fuel `≥` haystack length
suffices), replacing non-overlapping occurrences left to right exactly as
Python does. -/
def replaceAux (old new : PyStr) : Nat → PyStr → PyStr
  | _, [] => []
  | 0, hay => hay
  | n + 1, c :: rest =>
    if old.isPrefixOf (c :: rest) then
      new ++ replaceAux old new n (List.drop (old.length - 1) rest)
    else
      c :: replaceAux old new n rest

/-- `str.replace(old, new)` (for non-empty `old`, the only use here). -/
def pyReplace (hay old new : PyStr) : PyStr :=
  replaceAux old new hay.length hay

/-- `s.split(sep, 1)[1]` when `sep` occurs in `s`: everything after the
first occurrence of the single-character separator. -/
def afterFirstChar (sep : Char) (s : PyStr) : PyStr :=
  (s.dropWhile (fun c => c ≠ sep)).tail

/-- `s.split(sep, 1)[0]`: everything before the first occurrence of the
single-character separator (the whole string when absent). -/
def beforeFirstChar (sep : Char) (s : PyStr) : PyStr :=
  s.takeWhile (fun c => c ≠ sep)

/-- `str.split()` with no argument: split on whitespace runs, no empty
tokens.  `acc` holds the current token reversed. -/
def splitWSAux : List Char → PyStr → List PyStr
  | acc, [] => if acc.isEmpty then [] else [acc.reverse]
  | acc, c :: rest =>
    if isPySpace c then
      if acc.isEmpty then splitWSAux [] rest
      else acc.reverse :: splitWSAux [] rest
    else splitWSAux (c :: acc) rest

def pySplitWS (s : PyStr) : List PyStr := splitWSAux [] s

/-- `sep.join(parts)`. -/
def pyJoin (sep : PyStr) (parts : List PyStr) : PyStr :=
  List.intercalate sep parts

/-- Truthiness of an `Optional[str]`: `None` and `""` are falsy. -/
def pyTruthyS : Option PyStr → Bool
  | none => false
  | some s => !s.isEmpty

/-- Truthiness of an `Optional[float]`: `None` and `0.0` are falsy. -/
def pyTruthyQ : Option ℚ → Bool
  | none => false
  | some q => q ≠ 0

/-- `filter(None, values)` over `Optional[str]` values: keep the truthy
ones. -/
def filterTruthy (l : List (Option PyStr)) : List PyStr :=
  l.filterMap fun o =>
    match o with
    | none => none
    | some s => if s.isEmpty then none else some s

/-- Floor of a rational, computed from the numerator and denominator
(`fdiv` is floor division; `q.den > 0`). -/
def pyFloor (q : ℚ) : ℤ := q.num.fdiv q.den

/-- Python `round(x, p)`: round to `p` decimal places, ties to even
(banker's rounding), on the exact rational model. -/
def pyRoundTo (p : Nat) (q : ℚ) : ℚ :=
  let m : ℚ := (10 : ℚ) ^ p
  let x := q * m
  let f := pyFloor x
  let r := x - f
  let n : ℤ :=
    if r < 1 / 2 then f
    else if 1 / 2 < r then f + 1
    else if 2 ∣ f then f else f + 1
  (n : ℚ) / m

/-- `float(s)` for a string of ASCII digits and dots (the only shape the
program feeds it): valid iff there is at most one dot and at least one
digit. -/
def pyParseFloat (s : PyStr) : Option ℚ :=
  let digitsToNat : PyStr → Nat :=
    fun t => t.foldl (fun n c => n * 10 + (c.toNat - '0'.toNat)) 0
  match s.splitOn '.' with
  | [a] => if a.isEmpty then none else some (digitsToNat a : ℚ)
  | [a, b] =>
    if a.isEmpty ∧ b.isEmpty then none
    else some ((digitsToNat a : ℚ) + (digitsToNat b : ℚ) / (10 : ℚ) ^ b.length)
  | _ => none

-- The source file is double-encoded; the euro sign appears in the source
-- text as the three characters below, and the code's replace targets use
-- exactly those characters.
def euroMoji : PyStr := pstr "â‚¬"

/-- `normalize_unit_text` (case2_export.py:1403). -/
def normalize_unit_text (value : Option PyStr) : PyStr :=
  if !pyTruthyS value then []
  else
    let text := pyLower (pyStrip (value.getD []))
    let text :=
      if pyIn (pstr "(") text && pyIn (pstr ")") text then
        let inner := pyStrip (beforeFirstChar ')' (afterFirstChar '(' text))
        if !inner.isEmpty then pyLower inner else text
      else text
    let text := pyReplace text (pstr " ") []
    let text := pyReplace text (pstr "-") []
    let text := pyReplace text euroMoji (pstr "eur")
    let text := pyReplace text (pstr "euro") (pstr "eur")
    pyReplace text (pstr "keur") (pstr "keuro")


/-- Combining characters (the block U+0300-U+036F, which contains every
mark produced by the NFKD table below). -/
def isCombining (c : Char) : Bool :=
  0x300 ≤ c.toNat && c.toNat ≤ 0x36F

/-- NFKD decomposition of one character, restricted to the Latin-1
repertoire used by the program's static tables; characters outside the
table decompose to themselves. -/
def nfkdChar : Char → List Char
  | 'À' => ['A', '̀'] | 'Á' => ['A', '́'] | 'Â' => ['A', '̂']
  | 'Ã' => ['A', '̃'] | 'Ä' => ['A', '̈'] | 'Å' => ['A', '̊']
  | 'Ç' => ['C', '̧'] | 'È' => ['E', '̀'] | 'É' => ['E', '́']
  | 'Ê' => ['E', '̂'] | 'Ë' => ['E', '̈'] | 'Ì' => ['I', '̀']
  | 'Í' => ['I', '́'] | 'Î' => ['I', '̂'] | 'Ï' => ['I', '̈']
  | 'Ñ' => ['N', '̃'] | 'Ò' => ['O', '̀'] | 'Ó' => ['O', '́']
  | 'Ô' => ['O', '̂'] | 'Õ' => ['O', '̃'] | 'Ö' => ['O', '̈']
  | 'Ù' => ['U', '̀'] | 'Ú' => ['U', '́'] | 'Û' => ['U', '̂']
  | 'Ü' => ['U', '̈'] | 'Ý' => ['Y', '́']
  | 'à' => ['a', '̀'] | 'á' => ['a', '́'] | 'â' => ['a', '̂']
  | 'ã' => ['a', '̃'] | 'ä' => ['a', '̈'] | 'å' => ['a', '̊']
  | 'ç' => ['c', '̧'] | 'è' => ['e', '̀'] | 'é' => ['e', '́']
  | 'ê' => ['e', '̂'] | 'ë' => ['e', '̈'] | 'ì' => ['i', '̀']
  | 'í' => ['i', '́'] | 'î' => ['i', '̂'] | 'ï' => ['i', '̈']
  | 'ñ' => ['n', '̃'] | 'ò' => ['o', '̀'] | 'ó' => ['o', '́']
  | 'ô' => ['o', '̂'] | 'õ' => ['o', '̃'] | 'ö' => ['o', '̈']
  | 'ù' => ['u', '̀'] | 'ú' => ['u', '́'] | 'û' => ['u', '̂']
  | 'ü' => ['u', '̈'] | 'ý' => ['y', '́'] | 'ÿ' => ['y', '̈']
  | '¨' => [' ', '̈'] | '´' => [' ', '́']
  | c => [c]

/-- `_normalise_text` (case2_export.py:1347): NFKD-decompose, drop
combining marks, lower-case. -/
def normalise_text (value : PyStr) : PyStr :=
  ((value.flatMap nfkdChar).filter (fun c => !isCombining c)).map pyCharLower


/-- One entry of `CATEGORY_MAPPINGS` (case2_export.py:56). -/
structure CategoryProfile where
  keywords : List PyStr
  tags : List PyStr
  preferred_unit : PyStr
  unit_patterns : List PyStr

-- The static category table, in source (dict-insertion) order.  The
-- source file is double-encoded, so keyword strings below reproduce the
-- mojibake characters that are literally in the source.
def CATEGORY_MAPPINGS : List (PyStr × CategoryProfile) :=
  [ (pstr "it_services",
     { keywords := [pstr "programmation", pstr "conseil it",
         pstr "services d'information", pstr "software",
         pstr "dÃ©veloppement", pstr "consulting",
         pstr "information technology", pstr "tech support", pstr "cloud",
         pstr "saas", pstr "software development", pstr "it consulting"]
       tags := [pstr "services", pstr "conseil", pstr "numÃ©rique"]
       preferred_unit := pstr "kgCO2e/euro"
       unit_patterns := [pstr "euro", pstr "â‚¬", pstr "eur"] })
  , (pstr "insurance",
     { keywords := [pstr "assurance", pstr "rÃ©assurance", pstr "retraites",
         pstr "insurance", pstr "pension", pstr "sÃ©curitÃ© sociale",
         pstr "social security", pstr "garantie"]
       tags := [pstr "services", pstr "assurance", pstr "financier"]
       preferred_unit := pstr "kgCO2e/euro"
       unit_patterns := [pstr "euro", pstr "â‚¬", pstr "eur"] })
  , (pstr "market_research",
     { keywords := [pstr "publicitÃ©", pstr "Ã©tudes de marchÃ©",
         pstr "marketing", pstr "advertising", pstr "market research",
         pstr "Ã©tude", pstr "sondage", pstr "survey"]
       tags := [pstr "services", pstr "publicitÃ©", pstr "marketing"]
       preferred_unit := pstr "kgCO2e/euro"
       unit_patterns := [pstr "euro", pstr "â‚¬", pstr "eur"] })
  , (pstr "transportation_bus",
     { keywords := [pstr "autobus moyen", pstr "bus",
         pstr "transport en commun", pstr "urban area", pstr "zone urbaine",
         pstr "passager", pstr "passenger"]
       tags := [pstr "transport", pstr "routier", pstr "bus", pstr "passager"]
       preferred_unit := pstr "kgCO2e/passager.km"
       unit_patterns := [pstr "passager.km", pstr "passenger.km", pstr "km"] })
  , (pstr "transportation_air",
     { keywords := [pstr "avion", pstr "aviation", pstr "flight",
         pstr "air travel", pstr "passagers", pstr "siÃ¨ges", pstr "seats",
         pstr "jet", pstr "aÃ©rien"]
       tags := [pstr "transport", pstr "aÃ©rien", pstr "avion", pstr "passager"]
       preferred_unit := pstr "kgCO2e/passager.km"
       unit_patterns := [pstr "passager.km", pstr "passenger.km", pstr "km"] })
  , (pstr "accommodation",
     { keywords := [pstr "hÃ©bergement", pstr "restauration", pstr "hotel",
         pstr "accommodation", pstr "restaurant", pstr "nuitÃ©e",
         pstr "night", pstr "sÃ©jour"]
       tags := [pstr "hÃ©bergement", pstr "hÃ´tel", pstr "restauration"]
       preferred_unit := pstr "kgCO2e/euro"
       unit_patterns := [pstr "euro", pstr "â‚¬", pstr "eur", pstr "nuitÃ©e",
         pstr "night"] })
  , (pstr "vehicle_rental",
     { keywords := [pstr "autocar", pstr "car rental", pstr "location",
         pstr "vehicle", pstr "vÃ©hicule", pstr "rental", pstr "loueur"]
       tags := [pstr "transport", pstr "routier", pstr "location"]
       preferred_unit := pstr "kgCO2e/passager.km"
       unit_patterns := [pstr "passager.km", pstr "passenger.km", pstr "km"] })
  , (pstr "education",
     { keywords := [pstr "enseignement", pstr "education", pstr "formation",
         pstr "training", pstr "Ã©cole", pstr "school", pstr "university",
         pstr "cours"]
       tags := [pstr "services", pstr "enseignement", pstr "formation"]
       preferred_unit := pstr "kgCO2e/euro"
       unit_patterns := [pstr "euro", pstr "â‚¬", pstr "eur"] })
  , (pstr "real_estate",
     { keywords := [pstr "immobiliers", pstr "immobilier", pstr "real estate",
         pstr "property", pstr "foncier", pstr "terrain",
         pstr "bail immobilier", pstr "location immobiliere",
         pstr "lease property"]
       tags := [pstr "services", pstr "immobilier"]
       preferred_unit := pstr "kgCO2e/euro"
       unit_patterns := [pstr "euro", pstr "â‚¬", pstr "eur"] })
  , (pstr "legal_services",
     { keywords := [pstr "juridiques", pstr "comptables", pstr "legal",
         pstr "accounting", pstr "conseil de gestion", pstr "law",
         pstr "avocat", pstr "audit"]
       tags := [pstr "services", pstr "juridique", pstr "comptable",
         pstr "conseil"]
       preferred_unit := pstr "kgCO2e/euro"
       unit_patterns := [pstr "euro", pstr "â‚¬", pstr "eur"] })
  ]

/-- `InvoiceRecord` (case2_export.py:1531).  The `raw` field mapping is
kept by the source only for traceability and is read by no embedded
function, so it is omitted here. -/
structure InvoiceRecord where
  source_file : Option PyStr := none
  invoice_type : Option PyStr := none
  activity_data : Option ℚ := none
  unit : Option PyStr := none
  location : Option PyStr := none
  date : Option PyStr := none
  departure_city : Option PyStr := none
  departure_country : Option PyStr := none
  destination_city : Option PyStr := none
  destination_country : Option PyStr := none
  travel_class : Option PyStr := none
  transportation_type : Option PyStr := none
  passengers_or_nights : Option PyStr := none
deriving DecidableEq

/-- `InvoiceRecord.activity_scalar` (case2_export.py:1573): the numeric
field, else digits-and-dots extracted from the passenger/night text,
parsed leniently. -/
def InvoiceRecord.activity_scalar (inv : InvoiceRecord) : Option ℚ :=
  match inv.activity_data with
  | some v => some v
  | none =>
    match inv.passengers_or_nights with
    | none => none
    | some s =>
      let digits := s.filter (fun ch => ch.isDigit || ch == '.')
      if digits.isEmpty then none else pyParseFloat digits

/-- `FactorRecord` (case2_export.py:1589).  Timestamp, comment,
contributor-metadata and per-gas fields are carried by the source only
into the output writer; the fields below are the ones read by the
matching, selection, unit and emission logic verified here. -/
structure FactorRecord where
  row_index : ℤ := 0
  identifier : Option ℤ := none
  status : Option PyStr := none
  name_fr : Option PyStr := none
  name_en : Option PyStr := none
  category : Option PyStr := none
  tags_fr : Option PyStr := none
  unit_fr : Option PyStr := none
  unit_en : Option PyStr := none
  total : Option ℚ := none
deriving DecidableEq

/-- `FactorRecord.numerator_unit` (case2_export.py:1632). -/
def FactorRecord.numerator_unit (f : FactorRecord) : Option PyStr :=
  match f.unit_fr with
  | none => none
  | some u =>
    if u.isEmpty then none
    else if !pyIn (pstr "/") u then some u
    else some (beforeFirstChar '/' u)

/-- `FactorRecord.denominator_unit` (case2_export.py:1640). -/
def FactorRecord.denominator_unit (f : FactorRecord) : Option PyStr :=
  match f.unit_fr with
  | none => none
  | some u =>
    if u.isEmpty then none
    else if !pyIn (pstr "/") u then some (pstr "1")
    else some (afterFirstChar '/' u)

/-- `FactorRecord.is_activity_factor` (case2_export.py:1648). -/
def FactorRecord.is_activity_factor (f : FactorRecord) : Bool :=
  let denom := normalize_unit_text f.denominator_unit
  !denom.isEmpty &&
    !(denom = pstr "eur" ∨ denom = pstr "keuro" ∨ denom = pstr "keur")

/-- `MatchCandidate` (case2_export.py:1654). -/
structure MatchCandidate where
  factor : FactorRecord
  similarity : ℚ
deriving DecidableEq

/-- `LLMDecision` (case2_export.py:1660), the optional decision override. -/
structure LLMDecision where
  selected_row_index : Option ℤ := none
  review_required : Bool := false
  rationale : Option PyStr := none
  notes : Option PyStr := none
  detected_scope : Option PyStr := none
  inferred_activity_value : Option ℚ := none
  inferred_unit_dropdown : Option PyStr := none
  conversion_ratio : Option ℚ := none
  alternate_candidates : List (ℤ × PyStr) := []
  blocking_errors : List PyStr := []
deriving DecidableEq

/-- `MappingResult` (case2_export.py:1674). -/
structure MappingResult where
  invoice : InvoiceRecord
  selected : MatchCandidate
  candidates : List MatchCandidate
  review_required : Bool
  activity_value : Option ℚ
  activity_unit : Option PyStr
  conversion_ratio : ℚ
  calculated_emissions : Option ℚ
  activity_notes : PyStr
  rate_value : Option ℚ
  rate_currency : Option PyStr
  rate_source : Option PyStr
  rate_url : Option PyStr
  scope_value : PyStr
  llm_rationale : Option PyStr
  llm_notes : Option PyStr
  llm_alternatives : List (ℤ × PyStr)
  detected_category : Option PyStr
deriving DecidableEq

-- The dropdown-unit mapping of `infer_unit` (case2_export.py:1428), in
-- source (dict-insertion) order; the values reproduce the double-encoded
-- text literally present in the source.
def INFER_UNIT_MAPPING : List (PyStr × PyStr) :=
  [ (pstr "eur", pstr "æ¬§å…ƒ(Euro)")
  , (pstr "euro", pstr "æ¬§å…ƒ(Euro)")
  , (pstr "â‚¬", pstr "æ¬§å…ƒ(Euro)")
  , (pstr "keuro", pstr "kæ¬§å…ƒ(kâ‚¬)")
  , (pstr "kâ‚¬", pstr "kæ¬§å…ƒ(kâ‚¬)")
  , (pstr "usd", pstr "ç¾å…ƒ(US Dollar)")
  , (pstr "$", pstr "ç¾å…ƒ(US Dollar)")
  , (pstr "cny", pstr "äººæ°‘å¸(Chinese Yuan)")
  , (pstr "yuan", pstr "äººæ°‘å¸(Chinese Yuan)")
  , (pstr "Â¥", pstr "äººæ°‘å¸(Chinese Yuan)")
  , (pstr "ticket", pstr "äººæ¬¡(times)")
  , (pstr "passenger", pstr "äººæ¬¡(times)")
  , (pstr "passager", pstr "äººæ¬¡(times)")
  , (pstr "person", pstr "äººæ¬¡(times)")
  , (pstr "personne", pstr "äººæ¬¡(times)")
  , (pstr "pax", pstr "äººæ¬¡(times)")
  , (pstr "km", pstr "å…¬é‡Œ(km)")
  , (pstr "kilometer", pstr "å…¬é‡Œ(km)")
  , (pstr "kilometre", pstr "å…¬é‡Œ(km)")
  , (pstr "passager.km", pstr "passenger.km")
  , (pstr "passenger.km", pstr "passenger.km")
  , (pstr "pax.km", pstr "passenger.km")
  , (pstr "night", pstr "guest night(guest night)")
  , (pstr "nights", pstr "guest night(guest night)")
  , (pstr "nuitÃ©e", pstr "guest night(guest night)")
  , (pstr "nuitee", pstr "guest night(guest night)")
  , (pstr "jour", pstr "day")
  , (pstr "day", pstr "day")
  , (pstr "heure", pstr "hour")
  , (pstr "hour", pstr "hour")
  , (pstr "kwh", pstr "åƒç“¦æ—¶(kWh)")
  , (pstr "kilowattheure", pstr "åƒç“¦æ—¶(kWh)")
  , (pstr "wh", pstr "Wh")
  , (pstr "mwh", pstr "MWh")
  , (pstr "kg", pstr "kg(kg)")
  , (pstr "kilogram", pstr "kg(kg)")
  , (pstr "g", pstr "g")
  , (pstr "gram", pstr "g")
  , (pstr "t", pstr "tonne")
  , (pstr "ton", pstr "tonne")
  , (pstr "tonne", pstr "tonne")
  , (pstr "l", pstr "litre")
  , (pstr "litre", pstr "litre")
  , (pstr "liter", pstr "litre")
  , (pstr "m3", pstr "mÂ³")
  ]

/-- `infer_unit` (case2_export.py:1417): first mapping key equal to or
ending the token wins; then the passenger-km patterns; else the original
value is returned. -/
def infer_unit (value : Option PyStr) : Option PyStr :=
  if !pyTruthyS value then none
  else
    let v := value.getD []
    let token := pyLower (pyStrip v)
    match INFER_UNIT_MAPPING.find?
        (fun kv => token == kv.1 || kv.1.isSuffixOf token) with
    | some kv => some kv.2
    | none =>
      if pyIn (pstr "passager") token && pyIn (pstr "km") token then
        some (pstr "passenger.km")
      else if pyIn (pstr "passenger") token && pyIn (pstr "km") token then
        some (pstr "passenger.km")
      else some v

/-- `default_scope` (case2_export.py:1498); the scope labels reproduce
the double-encoded text literally present in the source. -/
def default_scope (invoice : InvoiceRecord) : PyStr :=
  let mode := pyLower (invoice.transportation_type.getD [])
  let invoice_type := pyLower (invoice.invoice_type.getD [])
  if [pstr "air", pstr "flight"].any (fun token => pyIn token mode) then
    pstr "èŒƒå›´ä¸‰ï¼Œç±»åˆ«6ï¼šå•†åŠ¡æ—…è¡Œ Business travel"
  else if [pstr "air", pstr "flight", pstr "hotel", pstr "accommodation",
      pstr "travel"].any (fun token => pyIn token invoice_type) then
    pstr "èŒƒå›´ä¸‰ï¼Œç±»åˆ«6ï¼šå•†åŠ¡æ—…è¡Œ Business travel"
  else
    pstr "èŒƒå›´ä¸‰ï¼Œç±»åˆ«1ï¼šå¤–è´­å•†å“å’ŒæœåŠ¡ Purchased goods and services"

/-- The keyword score of one `CATEGORY_MAPPINGS` profile against the
normalized invoice text, as accumulated inside `detect_invoice_category`
(case2_export.py:1769-1778): 2 per keyword appearing as a substring plus
1 per keyword token of length `> 2` appearing as a substring. -/
def category_score (normalized : PyStr) (mapping : CategoryProfile) : Nat :=
  mapping.keywords.foldl
    (fun score keyword =>
      let keyword_norm := normalise_text keyword
      let score := if pyIn keyword_norm normalized then score + 2 else score
      (pySplitWS keyword_norm).foldl
        (fun s token =>
          if pyIn token normalized && token.length > 2 then s + 1 else s)
        score)
    0

/-- Insert-or-overwrite on an association list: the model of assignment
`d[k] = v` on a Python dict (insertion order preserved). -/
def upsert (d : List (PyStr × Nat)) (k : PyStr) (v : Nat) : List (PyStr × Nat) :=
  match d with
  | [] => [(k, v)]
  | kv :: rest => if kv.1 = k then (k, v) :: rest else kv :: upsert rest k v

/-- The invoice text scored by the classifier: type, transport mode and
location joined and lower-cased (case2_export.py:1751-1760). -/
def searchable_of (inv : InvoiceRecord) : PyStr :=
  pyLower (pyJoin (pstr " ")
    (filterTruthy [inv.invoice_type, inv.transportation_type, inv.location]))

/-- `detect_invoice_category` (case2_export.py:1749): score every
profile, keep positive scores (a dict in iteration order), return the
key of the first maximal entry (`max` keeps the first on ties), `none`
when nothing scored or the searchable text is empty. -/
def detect_invoice_category (inv : InvoiceRecord) : Option PyStr :=
  let searchable := searchable_of inv
  if searchable.isEmpty then none
  else
    let normalized := normalise_text searchable
    let category_scores := CATEGORY_MAPPINGS.foldl
      (fun acc p =>
        let score := category_score normalized p.2
        if 0 < score then upsert acc p.1 score else acc)
      []
    match category_scores with
    | [] => none
    | h :: t => some ((t.foldl (fun b x => if b.2 < x.2 then x else b) h).1)

/-- `match_factor_to_category` (case2_export.py:1790): weighted tag /
unit / keyword overlap with a validity bonus, normalized by the weight
sum and clamped to 1.  The `invoice` parameter is unused by the source
body as well. -/
def match_factor_to_category (factor : FactorRecord) (category_name : PyStr)
    (_invoice : InvoiceRecord) : ℚ :=
  match CATEGORY_MAPPINGS.find? (fun p => p.1 = category_name) with
  | none => 0
  | some entry =>
    let mapping := entry.2
    let score : ℚ := 0
    let weights_sum : ℚ := 0
    let weights_sum := weights_sum + 0.4
    let score :=
      if pyTruthyS factor.tags_fr then
        let tags_normalized := normalise_text (factor.tags_fr.getD [])
        if mapping.tags.any (fun tag =>
            pyIn (normalise_text tag) tags_normalized) then
          score + 0.4
        else score
      else score
    let weights_sum := weights_sum + 0.3
    let score :=
      if pyTruthyS factor.unit_fr then
        let unit_normalized := normalize_unit_text factor.unit_fr
        if mapping.unit_patterns.any (fun pat =>
            pyIn (normalize_unit_text (some pat)) unit_normalized) then
          score + 0.3
        else score
      else score
    let weights_sum := weights_sum + 0.3
    let searchable_factor := pyJoin (pstr " ")
      (filterTruthy [factor.name_fr, factor.name_en, factor.category])
    let score :=
      if !searchable_factor.isEmpty then
        let factor_normalized := normalise_text searchable_factor
        if mapping.keywords.any (fun keyword =>
            pyIn (normalise_text keyword) factor_normalized) then
          score + 0.3
        else score
      else score
    let has_bonus := pyTruthyS factor.status &&
      pyIn (pstr "valide") (pyLower (factor.status.getD []))
    let score := if has_bonus then score + 0.1 else score
    let weights_sum := if has_bonus then weights_sum + 0.1 else weights_sum
    if 0 < weights_sum then min (score / weights_sum) 1 else 0

/-- The descending-by-score order used by the reranker's stable sort. -/
def bySimilarityDesc (a b : MatchCandidate) : Prop :=
  b.similarity ≤ a.similarity

instance : DecidableRel bySimilarityDesc := fun a b =>
  inferInstanceAs (Decidable (b.similarity ≤ a.similarity))

instance : IsTotal MatchCandidate bySimilarityDesc :=
  ⟨fun a b => (le_total b.similarity a.similarity).imp id id⟩

instance : IsTrans MatchCandidate bySimilarityDesc :=
  ⟨fun _ _ _ hab hbc => le_trans hbc hab⟩

/-- `enhanced_factor_search` (case2_export.py:1847): passthrough without
a known category, otherwise recombine `0.6 × similarity + 0.4 ×
category fit` and stable-sort descending (Python's stable `list.sort`
with `reverse=True`, modelled by the stable insertion sort). -/
def enhanced_factor_search (invoice : InvoiceRecord)
    (candidates : List MatchCandidate) (category : Option PyStr) :
    List MatchCandidate :=
  if !pyTruthyS category ||
      (CATEGORY_MAPPINGS.find? (fun p => p.1 = category.getD [])).isNone then
    candidates
  else
    let cat := category.getD []
    let enhanced := candidates.map fun candidate =>
      let category_score_ := match_factor_to_category candidate.factor cat invoice
      { factor := candidate.factor
        similarity := candidate.similarity * 0.6 + category_score_ * 0.4 }
    List.insertionSort bySimilarityDesc enhanced

/-- `choose_factor` (case2_export.py:1881): raises on an empty candidate
list (modelled by `Except.error`), else the pinned row if present, else
the first candidate whose status contains "valide", else the first
candidate. -/
def choose_factor (candidates : List MatchCandidate)
    (selected_row_index : Option ℤ) : Except PyStr MatchCandidate :=
  match candidates with
  | [] => .error (pstr "No factor candidates available.")
  | c0 :: rest =>
    let pinned : Option MatchCandidate :=
      match selected_row_index with
      | none => none
      | some i => (c0 :: rest).find? (fun c => c.factor.row_index == i)
    match pinned with
    | some c => .ok c
    | none =>
      let preferred : Option MatchCandidate := (c0 :: rest).find? (fun c =>
        pyIn (pstr "valide") (pyLower (c.factor.status.getD [])))
      match preferred with
      | some c => .ok c
      | none => .ok c0

/-- `compute_conversion` (case2_export.py:1899).  Each early `return` of
the source is one branch of the nested conditional; the note strings
reproduce the source's f-strings (including its double-encoded
characters) with the interpolations spliced in. -/
def compute_conversion (invoice_unit factor_denom : Option PyStr) :
    ℚ × Option PyStr :=
  if !pyTruthyS invoice_unit || !pyTruthyS factor_denom then (1, none)
  else
    let iu := invoice_unit.getD []
    let fd := factor_denom.getD []
    let ni := normalize_unit_text invoice_unit
    let nf := normalize_unit_text factor_denom
    if ni = nf then (1, none)
    else if (nf = pstr "keuro" ∨ nf = pstr "keur" ∨ nf = pstr "k" ++ euroMoji) ∧
        (ni = pstr "eur" ∨ ni = pstr "euro" ∨ ni = euroMoji) then
      (0.001, some (pstr "Converted from EUR to k" ++ euroMoji))
    else if (nf = pstr "keuro" ∨ nf = pstr "keur" ∨ nf = pstr "k" ++ euroMoji) ∧
        (ni = pstr "cent" ∨ ni = pstr "centime") then
      (0.00001, some (pstr "Converted from cents to k" ++ euroMoji))
    else if (nf = pstr "km" ∨ nf = pstr "kilometre" ∨ nf = pstr "kilometer") ∧
        (ni = pstr "m" ∨ ni = pstr "metre" ∨ ni = pstr "meter") then
      (0.001, some (pstr "Converted from meters to km"))
    else if (nf = pstr "km" ∨ nf = pstr "kilometre" ∨ nf = pstr "kilometer") ∧
        (ni = pstr "mile" ∨ ni = pstr "mi") then
      (1.60934, some (pstr "Converted from miles to km"))
    else if (pyIn (pstr "passager") nf || pyIn (pstr "passenger") nf) ∧
        (pyIn (pstr "passager") ni || pyIn (pstr "passenger") ni) ∧
        (pyIn (pstr "km") nf && pyIn (pstr "km") ni) then
      (1, none)
    else if (pyIn (pstr "passager") nf || pyIn (pstr "passenger") nf) ∧
        (pyIn (pstr "passager") ni || pyIn (pstr "passenger") ni) ∧
        (pyIn (pstr "km") nf && pyIn (pstr "m") ni) then
      (0.001, some (pstr "Converted from passenger-m to passenger-km"))
    else if (nf = pstr "kg" ∨ nf = pstr "kilogram") ∧
        (ni = pstr "g" ∨ ni = pstr "gram" ∨ ni = pstr "gramme") then
      (0.001, some (pstr "Converted from grams to kg"))
    else if (nf = pstr "kg" ∨ nf = pstr "kilogram") ∧
        (ni = pstr "t" ∨ ni = pstr "ton" ∨ ni = pstr "tonne") then
      (1000, some (pstr "Converted from tonnes to kg"))
    else if (nf = pstr "kwh" ∨ nf = pstr "kilowattheure") ∧
        (ni = pstr "wh" ∨ ni = pstr "wattheure") then
      (0.001, some (pstr "Converted from Wh to kWh"))
    else if (nf = pstr "kwh" ∨ nf = pstr "kilowattheure") ∧
        (ni = pstr "mwh" ∨ ni = pstr "megawattheure") then
      (1000, some (pstr "Converted from MWh to kWh"))
    else if (pyIn (pstr "nuitee") nf || pyIn (pstr "night") nf) ∧
        (pyIn (pstr "nuitee") ni || pyIn (pstr "night") ni) then
      (1, none)
    else if (pyIn ni nf || pyIn nf ni) ∧ (ni.length > 3 ∧ nf.length > 3) then
      (1, some (pstr "Unit match (partial): " ++ iu ++ pstr " â‰ˆ " ++ fd))
    else
      (1, some (pstr "Unit mismatch: invoice=" ++ iu ++ pstr ", factor=" ++ fd))

/-- `compute_emissions` (case2_export.py:1971): the plain product, null
when activity or factor value is null. -/
def compute_emissions (activity factor_value : Option ℚ) (conversion : ℚ) :
    Option ℚ :=
  match activity, factor_value with
  | some a, some f => some (a * f * conversion)
  | _, _ => none

/-- `summarise_activity` (case2_export.py:1979): returns
`(activity_value, unit, conversion_ratio, notes)`. -/
def summarise_activity (invoice : InvoiceRecord) (factor : FactorRecord)
    (llm : Option LLMDecision) : Option ℚ × Option PyStr × ℚ × PyStr :=
  let unit := infer_unit invoice.unit
  let activity_value := invoice.activity_scalar
  let activity_value :=
    match llm with
    | some l => match l.inferred_activity_value with
      | some v => some v
      | none => activity_value
    | none => activity_value
  let unit :=
    match llm with
    | some l => if pyTruthyS l.inferred_unit_dropdown then
        l.inferred_unit_dropdown else unit
    | none => unit
  let defaulted := activity_value.isNone
  let notes : List PyStr :=
    if defaulted then [pstr "No numeric activity provided; defaulted to 1.0"]
    else []
  let activity_value := if defaulted then some 1 else activity_value
  let unit :=
    if defaulted then (if pyTruthyS unit then unit else some (pstr "äººæ¬¡(times)"))
    else unit
  let useLlmRatio := match llm with
    | some l => pyTruthyQ l.conversion_ratio
    | none => false
  let (conversion_ratio, mismatch_note) :=
    if useLlmRatio then
      ((llm.bind (fun l => l.conversion_ratio)).getD 1, none)
    else
      compute_conversion unit factor.denominator_unit
  let notes := notes ++ (match mismatch_note with
    | some n => [n]
    | none => [])
  let notes := notes ++
    (if !factor.is_activity_factor then
      [pstr "Selected factor is monetary or lacks activity denominator; review."]
    else [])
  (activity_value, unit, conversion_ratio, pyJoin (pstr "; ") notes)

/-- `build_mapping` (case2_export.py:2013).  The external rate fetcher
(`ECBRateFetcher.get_rate`, an external interface per the design) is a
function parameter returning `(rate, source, url)`. -/
def build_mapping (invoice : InvoiceRecord) (selected : MatchCandidate)
    (candidates : List MatchCandidate)
    (rate_fetcher : Option PyStr → Option PyStr →
      Option ℚ × Option PyStr × Option PyStr)
    (llm : Option LLMDecision) (detected_category : Option PyStr) :
    MappingResult :=
  let (activity_value, activity_unit, conversion_ratio, activity_notes) :=
    summarise_activity invoice selected.factor llm
  let emissions :=
    compute_emissions activity_value selected.factor.total conversion_ratio
  let (rate_value, rate_source, rate_url) := rate_fetcher invoice.date invoice.unit
  let scope_value :=
    match llm with
    | some l => if pyTruthyS l.detected_scope then l.detected_scope.getD []
        else default_scope invoice
    | none => default_scope invoice
  let review_required := match llm with
    | some l => l.review_required
    | none => false
  let review_required :=
    match llm with
    | some l => if !l.alternate_candidates.isEmpty then true else review_required
    | none => review_required
  let review_required :=
    if selected.factor.total.isNone then true else review_required
  { invoice := invoice
    selected := selected
    candidates := candidates
    review_required := review_required
    activity_value := activity_value
    activity_unit := activity_unit
    conversion_ratio := conversion_ratio
    calculated_emissions := emissions
    activity_notes := activity_notes
    rate_value := rate_value
    rate_currency := if pyTruthyQ rate_value then some (pstr "EUR") else none
    rate_source := rate_source
    rate_url := rate_url
    scope_value := scope_value
    llm_rationale := llm.bind (fun l => l.rationale)
    llm_notes := llm.bind (fun l => l.notes)
    llm_alternatives := match llm with
      | some l => l.alternate_candidates
      | none => []
    detected_category := detected_category }

/-- `_find_strict_match` (case2_export.py:2742).  The strict-mapping
table (a JSON file loaded at startup, an external input per the design)
is a parameter mapping invoice types to the optional `factor_name`
entry; the search backend's answer for the mapped name is the `results`
parameter, each row already shaped as a `FactorRecord` (the JSON-row
parsing of `_build_match_candidate` is external I/O and cannot fail in
the model, matching its `try`/`except` skip).  The scan returns, for
each row in order, an exact `name_fr` match with similarity 1.0, else a
substring match on `name_fr` or `name_en` with similarity 0.99. -/
def find_strict_match (invoice : InvoiceRecord)
    (strict_mappings : List (PyStr × Option PyStr))
    (results : List FactorRecord) : Option MatchCandidate :=
  if !pyTruthyS invoice.invoice_type || strict_mappings.isEmpty then none
  else
    let invoice_type_normalized :=
      pyStrip (pyLower (invoice.invoice_type.getD []))
    match strict_mappings.find? (fun kv => kv.1 = invoice_type_normalized) with
    | none => none
    | some mapping =>
      match mapping.2 with
      | none => none
      | some factor_name_target =>
        if factor_name_target.isEmpty then none
        else
          let rec scan : List FactorRecord → Option MatchCandidate
            | [] => none
            | r :: rest =>
              if r.name_fr = some factor_name_target then
                some { factor := r, similarity := 1 }
              else if pyTruthyS r.name_fr &&
                  pyIn factor_name_target (r.name_fr.getD []) then
                some { factor := r, similarity := 0.99 }
              else if pyTruthyS r.name_en &&
                  pyIn factor_name_target (r.name_en.getD []) then
                some { factor := r, similarity := 0.99 }
              else scan rest
          scan results

/-- A string on which every step of `normalize_unit_text` is the
identity: no whitespace, already lower-case, no matched parenthesis
pair, no space or hyphen, and none of the replacement targets `â‚¬`
(the euro sign as double-encoded in the source), `euro`, `keur`. -/
def normalizedFixed (t : PyStr) : Bool :=
  t.all (fun c => !isPySpace c && (pyCharLower c == c)) &&
  !(pyIn (pstr "(") t && pyIn (pstr ")") t) &&
  !pyIn (pstr " ") t && !pyIn (pstr "-") t && !pyIn euroMoji t &&
  !pyIn (pstr "euro") t && !pyIn (pstr "keur") t

/-- "No known conversion or match applies" for `compute_conversion`:
both units are present, their normal forms differ, the pair is in none
of the fixed conversion families (currency, distance, passenger-km,
mass, energy, nights), and the partial-substring heuristic does not
fire. -/
def no_known_conversion (invoice_unit factor_denom : Option PyStr) : Bool :=
  let ni := normalize_unit_text invoice_unit
  let nf := normalize_unit_text factor_denom
  pyTruthyS invoice_unit && pyTruthyS factor_denom &&
  !decide (ni = nf) &&
  !decide ((nf = pstr "keuro" ∨ nf = pstr "keur" ∨ nf = pstr "k" ++ euroMoji) ∧
    (ni = pstr "eur" ∨ ni = pstr "euro" ∨ ni = euroMoji)) &&
  !decide ((nf = pstr "keuro" ∨ nf = pstr "keur" ∨ nf = pstr "k" ++ euroMoji) ∧
    (ni = pstr "cent" ∨ ni = pstr "centime")) &&
  !decide ((nf = pstr "km" ∨ nf = pstr "kilometre" ∨ nf = pstr "kilometer") ∧
    (ni = pstr "m" ∨ ni = pstr "metre" ∨ ni = pstr "meter")) &&
  !decide ((nf = pstr "km" ∨ nf = pstr "kilometre" ∨ nf = pstr "kilometer") ∧
    (ni = pstr "mile" ∨ ni = pstr "mi")) &&
  !decide ((pyIn (pstr "passager") nf || pyIn (pstr "passenger") nf) = true ∧
    (pyIn (pstr "passager") ni || pyIn (pstr "passenger") ni) = true ∧
    (pyIn (pstr "km") nf && pyIn (pstr "km") ni) = true) &&
  !decide ((pyIn (pstr "passager") nf || pyIn (pstr "passenger") nf) = true ∧
    (pyIn (pstr "passager") ni || pyIn (pstr "passenger") ni) = true ∧
    (pyIn (pstr "km") nf && pyIn (pstr "m") ni) = true) &&
  !decide ((nf = pstr "kg" ∨ nf = pstr "kilogram") ∧
    (ni = pstr "g" ∨ ni = pstr "gram" ∨ ni = pstr "gramme")) &&
  !decide ((nf = pstr "kg" ∨ nf = pstr "kilogram") ∧
    (ni = pstr "t" ∨ ni = pstr "ton" ∨ ni = pstr "tonne")) &&
  !decide ((nf = pstr "kwh" ∨ nf = pstr "kilowattheure") ∧
    (ni = pstr "wh" ∨ ni = pstr "wattheure")) &&
  !decide ((nf = pstr "kwh" ∨ nf = pstr "kilowattheure") ∧
    (ni = pstr "mwh" ∨ ni = pstr "megawattheure")) &&
  !decide ((pyIn (pstr "nuitee") nf || pyIn (pstr "night") nf) = true ∧
    (pyIn (pstr "nuitee") ni || pyIn (pstr "night") ni) = true) &&
  !decide ((pyIn ni nf || pyIn nf ni) = true ∧ (ni.length > 3 ∧ nf.length > 3))

/-- The classifier score of one profile against an invoice, as used by
`detect_invoice_category`. -/
def invoice_category_score (inv : InvoiceRecord) (mapping : CategoryProfile) :
    Nat :=
  category_score (normalise_text (searchable_of inv)) mapping

-- Concrete inputs used by the witness and counterexample theorems below.

/-- A factor whose French name is exactly the strict-mapping target. -/
def strictExactHit : FactorRecord := { row_index := 2, name_fr := some (pstr "Foo") }

/-- A factor whose French name merely contains the target as a
substring. -/
def strictPartialHit : FactorRecord :=
  { row_index := 1, name_fr := some (pstr "Foo Bar") }

def strictDemoInvoice : InvoiceRecord := { invoice_type := some (pstr "T") }

def strictDemoTable : List (PyStr × Option PyStr) := [(pstr "t", some (pstr "Foo"))]

/-- A rate fetcher returning no rate, standing in for the external ECB
fetcher in concrete instantiations. -/
def nullRateFetcher : Option PyStr → Option PyStr →
    Option ℚ × Option PyStr × Option PyStr :=
  fun _ _ => (none, none, none)

def demoInvoiceUnitActivity : InvoiceRecord := { activity_data := some 1 }

/-- A factor with a sub-millesimal total, so the exact product of an
activity of 1 with it differs from its 3-decimal rounding. -/
def demoSmallFactor : FactorRecord := { total := some (1 / 10000) }

-- ============================================================
-- General lemmas
-- ============================================================

theorem dropWhile_eq_self_of_all {p : Char → Bool} {s : PyStr}
    (h : ∀ c ∈ s, p c = false) : s.dropWhile p = s := by
  cases s with
  | nil => rfl
  | cons c t =>
    have hc := h c (List.mem_cons_self c t)
    simp [List.dropWhile, hc]

theorem pyStrip_eq_self_of_all {s : PyStr}
    (h : ∀ c ∈ s, isPySpace c = false) : pyStrip s = s := by
  unfold pyStrip
  rw [dropWhile_eq_self_of_all h]
  rw [dropWhile_eq_self_of_all (fun c hc => h c (List.mem_reverse.mp hc))]
  exact List.reverse_reverse s

theorem pyLower_eq_self_of_all {s : PyStr}
    (h : ∀ c ∈ s, pyCharLower c = c) : pyLower s = s := by
  induction s with
  | nil => rfl
  | cons c t ih =>
    simp only [pyLower, List.map_cons] at ih ⊢
    rw [h c (List.mem_cons_self c t),
      ih (fun x hx => h x (List.mem_cons_of_mem c hx))]

theorem replaceAux_eq_self_of_not_in {old new s : PyStr} :
    ∀ n, pyIn old s = false → replaceAux old new n s = s := by
  induction s with
  | nil => intro n _; cases n <;> rfl
  | cons c t ih =>
    intro n h
    simp only [pyIn, Bool.or_eq_false_iff] at h
    cases n with
    | zero => rfl
    | succ m =>
      simp only [replaceAux, h.1, Bool.false_eq_true, if_false]
      rw [ih m h.2]

theorem pyReplace_eq_self_of_not_in {old new s : PyStr}
    (h : pyIn old s = false) : pyReplace s old new = s :=
  replaceAux_eq_self_of_not_in _ h

/-- `normalize_unit_text` is the identity on strings that are already in
its fixed normal form. -/
theorem normalize_unit_text_fixed {t : PyStr} (h : normalizedFixed t = true) :
    normalize_unit_text (some t) = t := by
  rcases eq_or_ne t [] with rfl | hne
  · rfl
  · simp only [normalizedFixed, Bool.and_eq_true, Bool.not_eq_true',
      List.all_eq_true] at h
    obtain ⟨⟨⟨⟨⟨⟨hchars, hpar⟩, hsp⟩, hdash⟩, heu⟩, heuro⟩, hkeur⟩ := h
    have hnos : ∀ c ∈ t, isPySpace c = false := fun c hc => (hchars c hc).1
    have hlow : ∀ c ∈ t, pyCharLower c = c := by
      intro c hc
      have hx := (hchars c hc).2
      simpa only [beq_iff_eq] using hx
    have htru : pyTruthyS (some t) = true := by
      simpa [pyTruthyS, List.isEmpty_iff] using hne
    have e1 : pyStrip t = t := pyStrip_eq_self_of_all hnos
    have e2 : pyLower t = t := pyLower_eq_self_of_all hlow
    have r1 : pyReplace t (pstr " ") [] = t := pyReplace_eq_self_of_not_in hsp
    have r2 : pyReplace t (pstr "-") [] = t := pyReplace_eq_self_of_not_in hdash
    have r3 : pyReplace t euroMoji (pstr "eur") = t :=
      pyReplace_eq_self_of_not_in heu
    have r4 : pyReplace t (pstr "euro") (pstr "eur") = t :=
      pyReplace_eq_self_of_not_in heuro
    have r5 : pyReplace t (pstr "keur") (pstr "keuro") = t :=
      pyReplace_eq_self_of_not_in hkeur
    simp [normalize_unit_text, htru, e1, e2, hpar, r1, r2, r3, r4, r5]

-- ============================================================
-- Claim theorems
-- ============================================================

/-- C3, counterexample: `normalize_unit_text` is not idempotent.  On
input "euroo" the first application yields "euro" (the replacement
`euro`→`eur` re-creates an occurrence of `euro` at the seam), and the
second application yields "eur". -/
theorem c3_normalize_not_idempotent_cex :
    normalize_unit_text (some (normalize_unit_text (some (pstr "euroo")))) ≠
      normalize_unit_text (some (pstr "euroo")) := by decide

/-- C3, amended: `normalize_unit_text` is idempotent on every input
whose output is in fixed normal form, that is, contains no whitespace,
is already lower-case, has no parenthesis pair, and is free of the
replacement targets (space, hyphen, the euro sign, `euro`, `keur`); in
general idempotence fails (see the counterexample). -/
theorem c3_normalize_idempotent_on_fixed (v : Option PyStr)
    (h : normalizedFixed (normalize_unit_text v) = true) :
    normalize_unit_text (some (normalize_unit_text v)) = normalize_unit_text v :=
  normalize_unit_text_fixed h

/-- C3, witness: the amended theorem applied at the concrete input
"KG ", whose output "kg" is in fixed normal form. -/
theorem c3_normalize_idempotent_on_fixed_witness :
    normalize_unit_text (some (normalize_unit_text (some (pstr "KG ")))) =
      normalize_unit_text (some (pstr "KG ")) :=
  c3_normalize_idempotent_on_fixed (some (pstr "KG ")) (by decide)

/-- C9, counterexample: a factor whose unit string is present but empty.
The empty string does not contain "/" yet `denominator_unit` is `none`
(the code's falsiness test sends "" down the no-unit branch), not the
scalar unit "1". -/
theorem c9_denominator_empty_unit_cex :
    pyIn (pstr "/") [] = false ∧
    ({ unit_fr := some [] } : FactorRecord).denominator_unit = none ∧
    ({ unit_fr := some [] } : FactorRecord).denominator_unit ≠ some (pstr "1") := by
  refine ⟨rfl, rfl, ?_⟩
  decide

/-- C9, amended: for every factor record whose unit string is present
and non-empty and does not contain "/", the derived `denominator_unit`
is the scalar unit "1". -/
theorem c9_denominator_no_slash (f : FactorRecord) (u : PyStr)
    (h1 : f.unit_fr = some u) (h2 : u ≠ [])
    (h3 : pyIn (pstr "/") u = false) :
    f.denominator_unit = some (pstr "1") := by
  simp [FactorRecord.denominator_unit, h1, h3, List.isEmpty_iff, h2]

/-- C9, witness: the amended theorem at a factor with unit string
"kgCO2e". -/
theorem c9_denominator_no_slash_witness :
    ({ unit_fr := some (pstr "kgCO2e") } : FactorRecord).denominator_unit =
      some (pstr "1") :=
  c9_denominator_no_slash _ (pstr "kgCO2e") rfl (by decide) (by decide)

/-- C10: when the invoice activity unit or the factor denominator unit
is absent or empty, `compute_conversion` returns ratio 1.0 with no note
at all: the missing unit is treated as resolved and produces no
mismatch note. -/
theorem c10_missing_unit_silent (iu fd : Option PyStr)
    (h : pyTruthyS iu = false ∨ pyTruthyS fd = false) :
    compute_conversion iu fd = (1, none) := by
  unfold compute_conversion
  rcases h with h | h <;> simp [h]

/-- C10, witness: a missing invoice unit against factor denominator
"kg". -/
theorem c10_missing_unit_silent_witness :
    compute_conversion none (some (pstr "kg")) = (1, none) :=
  c10_missing_unit_silent none (some (pstr "kg")) (Or.inl rfl)

/-- C6: `compute_conversion` is a total function (the model of "never
raises"): it returns a ratio for every pair of units; and whenever no
known conversion or match applies, the ratio defaults to 1.0 and the
unit-mismatch note naming both units is recorded. -/
theorem c6_conversion_total_default (iu fd : Option PyStr) :
    (∃ r note, compute_conversion iu fd = (r, note)) ∧
    (no_known_conversion iu fd = true →
      compute_conversion iu fd =
        (1, some (pstr "Unit mismatch: invoice=" ++ iu.getD [] ++
          pstr ", factor=" ++ fd.getD []))) := by
  constructor
  · exact ⟨_, _, rfl⟩
  · intro h
    simp only [no_known_conversion, Bool.and_eq_true, Bool.not_eq_true',
      decide_eq_false_iff_not] at h
    obtain ⟨⟨⟨⟨⟨⟨⟨⟨⟨⟨⟨⟨⟨⟨h1, h2⟩, n1⟩, n2⟩, n3⟩, n4⟩, n5⟩, n6⟩, n7⟩,
      n8⟩, n9⟩, n10⟩, n11⟩, n12⟩, n13⟩ := h
    simp only [compute_conversion, h1, h2, Bool.not_true, Bool.or_self,
      Bool.false_eq_true, if_false, Bool.and_eq_true, n1, n2, n3, n4, n5,
      n6, n7, n8, n9, n10, n11, n12, n13, if_neg]

/-- C6, witness: two unrelated unit strings fall through every
conversion rule and produce ratio 1.0 with the mismatch note. -/
theorem c6_conversion_total_default_witness :
    compute_conversion (some (pstr "xyzzy")) (some (pstr "plugh")) =
      (1, some (pstr "Unit mismatch: invoice=" ++
        (some (pstr "xyzzy")).getD [] ++ pstr ", factor=" ++
        (some (pstr "plugh")).getD [])) :=
  (c6_conversion_total_default (some (pstr "xyzzy")) (some (pstr "plugh"))).2
    (by decide)

/-- C5: `choose_factor` on an empty candidate list is the hard error,
and without an applicable pinned row index it returns the first
candidate whose status contains "valide" (on the lower-cased status
text), else the first candidate in ranked order. -/
theorem c5_choose_factor (cands : List MatchCandidate) (idx : Option ℤ)
    (hne : cands ≠ [])
    (hpin : ∀ i, idx = some i → ∀ c ∈ cands, c.factor.row_index ≠ i) :
    choose_factor [] idx = .error (pstr "No factor candidates available.") ∧
    choose_factor cands idx = .ok
      ((cands.find? (fun c =>
        pyIn (pstr "valide") (pyLower (c.factor.status.getD [])))).getD
        (cands.head hne)) := by
  constructor
  · rfl
  · cases cands with
    | nil => exact absurd rfl hne
    | cons c0 rest =>
      simp only [choose_factor]
      cases idx with
      | none =>
        cases hfv : (c0 :: rest).find? (fun c =>
            pyIn (pstr "valide") (pyLower (c.factor.status.getD []))) with
        | none => simp [hfv]
        | some c => simp [hfv]
      | some i =>
        have hf : (c0 :: rest).find? (fun c => c.factor.row_index == i) =
            none :=
          List.find?_eq_none.mpr (fun c hc => by simpa using hpin i rfl c hc)
        cases hfv : (c0 :: rest).find? (fun c =>
            pyIn (pstr "valide") (pyLower (c.factor.status.getD []))) with
        | none => simp [hf, hfv]
        | some c => simp [hf, hfv]

/-- C5, witness: a pinned row index matching no candidate is ignored
and the valid-status candidate is selected over the first. -/
theorem c5_choose_factor_witness :
    choose_factor [] (some 99) =
      .error (pstr "No factor candidates available.") ∧
    choose_factor
      [⟨{ row_index := 1, status := some (pstr "Archive") }, 1⟩,
       ⟨{ row_index := 2, status := some (pstr "Valide") }, 1⟩] (some 99) =
      .ok (([⟨{ row_index := 1, status := some (pstr "Archive") }, 1⟩,
        (⟨{ row_index := 2, status := some (pstr "Valide") }, 1⟩ :
          MatchCandidate)].find? (fun c =>
            pyIn (pstr "valide") (pyLower (c.factor.status.getD [])))).getD
        ([⟨{ row_index := 1, status := some (pstr "Archive") }, 1⟩,
          (⟨{ row_index := 2, status := some (pstr "Valide") }, 1⟩ :
            MatchCandidate)].head (by decide))) :=
  c5_choose_factor _ (some 99) (by decide)
    (by intro i hi c hc; cases hi; revert c hc; decide)

/-- C4: with an override present, the review-required flag of the built
mapping is exactly the OR of: the override requests review, the
override lists at least one alternate candidate, the selected factor's
total is null. -/
theorem c4_review_required_iff (invoice : InvoiceRecord)
    (selected : MatchCandidate) (candidates : List MatchCandidate)
    (rate_fetcher : Option PyStr → Option PyStr →
      Option ℚ × Option PyStr × Option PyStr)
    (l : LLMDecision) (cat : Option PyStr) :
    (build_mapping invoice selected candidates rate_fetcher (some l)
        cat).review_required =
      (l.review_required || !l.alternate_candidates.isEmpty ||
        selected.factor.total.isNone) := by
  cases hT : selected.factor.total.isNone <;>
    cases hA : l.alternate_candidates.isEmpty <;>
      cases hR : l.review_required <;>
        simp [build_mapping, hT, hA, hR]

/-- C2, counterexample: `calculated_emissions` stores the exact product,
not its 3-decimal rounding.  With activity 1, factor total 1/10000 and
conversion ratio 1, the stored value is 1/10000 while the rounded value
is 0. -/
theorem c2_emissions_not_rounded_cex :
    (build_mapping demoInvoiceUnitActivity ⟨demoSmallFactor, 1⟩ []
        nullRateFetcher none none).calculated_emissions =
      some ((1 : ℚ) / 10000) ∧
    pyRoundTo 3 ((1 : ℚ) * ((1 : ℚ) / 10000) * 1) = 0 ∧
    (build_mapping demoInvoiceUnitActivity ⟨demoSmallFactor, 1⟩ []
        nullRateFetcher none none).calculated_emissions ≠
      some (pyRoundTo 3 ((1 : ℚ) * ((1 : ℚ) / 10000) * 1)) := by
  have h1 : (build_mapping demoInvoiceUnitActivity ⟨demoSmallFactor, 1⟩ []
      nullRateFetcher none none).calculated_emissions =
        some ((1 : ℚ) / 10000) := by
    simp +decide [build_mapping, summarise_activity, compute_emissions,
      demoInvoiceUnitActivity, demoSmallFactor, nullRateFetcher,
      InvoiceRecord.activity_scalar, infer_unit, compute_conversion,
      FactorRecord.denominator_unit]
  have h2 : pyRoundTo 3 ((1 : ℚ) * ((1 : ℚ) / 10000) * 1) = 0 := by
    norm_num [pyRoundTo, pyFloor, show Int.fdiv 1 10 = 0 from by decide]
  refine ⟨h1, h2, ?_⟩
  rw [h1, h2]
  norm_num

/-- C2, amended: `calculated_emissions` equals the exact (unrounded)
product `activity * factor_total * conversion_ratio` whenever the
resolved activity value and the factor total are non-null, and is null
whenever the factor total is null (the resolved activity value itself is
never null, because `summarise_activity` defaults it to 1.0). -/
theorem c2_emissions_exact_product (invoice : InvoiceRecord)
    (selected : MatchCandidate) (candidates : List MatchCandidate)
    (rate_fetcher : Option PyStr → Option PyStr →
      Option ℚ × Option PyStr × Option PyStr)
    (llm : Option LLMDecision) (cat : Option PyStr) :
    (∀ a t,
      (build_mapping invoice selected candidates rate_fetcher llm
          cat).activity_value = some a →
      selected.factor.total = some t →
      (build_mapping invoice selected candidates rate_fetcher llm
          cat).calculated_emissions =
        some (a * t * (build_mapping invoice selected candidates rate_fetcher
          llm cat).conversion_ratio)) ∧
    (selected.factor.total = none →
      (build_mapping invoice selected candidates rate_fetcher llm
          cat).calculated_emissions = none) := by
  have key : (build_mapping invoice selected candidates rate_fetcher llm
      cat).calculated_emissions =
    compute_emissions
      (build_mapping invoice selected candidates rate_fetcher llm
        cat).activity_value
      selected.factor.total
      (build_mapping invoice selected candidates rate_fetcher llm
        cat).conversion_ratio := by
    simp [build_mapping]
  constructor
  · intro a t ha ht
    rw [key, ha, ht]
    simp [compute_emissions]
  · intro ht
    rw [key, ht]
    cases (build_mapping invoice selected candidates rate_fetcher llm
        cat).activity_value <;> simp [compute_emissions]

/-- C2, witness: the amended theorem at activity 1, factor total
1/10000, conversion ratio as computed. -/
theorem c2_emissions_exact_product_witness :
    (build_mapping demoInvoiceUnitActivity ⟨demoSmallFactor, 1⟩ []
        nullRateFetcher none none).calculated_emissions =
      some ((1 : ℚ) * ((1 : ℚ) / 10000) *
        (build_mapping demoInvoiceUnitActivity ⟨demoSmallFactor, 1⟩ []
          nullRateFetcher none none).conversion_ratio) :=
  (c2_emissions_exact_product demoInvoiceUnitActivity ⟨demoSmallFactor, 1⟩ []
      nullRateFetcher none none).1 1 ((1 : ℚ) / 10000)
    (by simp +decide [build_mapping, summarise_activity,
      demoInvoiceUnitActivity, demoSmallFactor, nullRateFetcher,
      InvoiceRecord.activity_scalar, infer_unit, compute_conversion,
      FactorRecord.denominator_unit])
    rfl

/-- C1 (at the code's failing input): in `_find_strict_match`, a
partial-substring hit earlier in the search-result list is returned
(with similarity 0.99) even though an exact name match (similarity 1.0)
appears later; swapping the order returns the exact match — selection
depends on result order, contradicting the documented
exact-match-first intent. -/
theorem c1_strict_match_order_dependent :
    find_strict_match strictDemoInvoice strictDemoTable
        [strictPartialHit, strictExactHit] =
      some { factor := strictPartialHit, similarity := 0.99 } ∧
    find_strict_match strictDemoInvoice strictDemoTable
        [strictExactHit, strictPartialHit] =
      some { factor := strictExactHit, similarity := 1 } ∧
    strictExactHit.name_fr = some (pstr "Foo") ∧
    pyIn (pstr "Foo") (strictPartialHit.name_fr.getD []) = true := by
  refine ⟨?_, ?_, rfl, by decide⟩ <;>
    simp +decide [find_strict_match, strictDemoInvoice, strictDemoTable,
      strictPartialHit, strictExactHit, find_strict_match.scan]

/-- C7: with no detected category the reranker returns the candidate
list unchanged; with a detected category (a key of the table) the
output is a permutation of the input rescored as
`0.6 × similarity + 0.4 × category fit`, sorted descending by the
combined score. -/
theorem c7_reranker_passthrough_and_rescoring (inv : InvoiceRecord)
    (cands : List MatchCandidate) (cat : PyStr) :
    enhanced_factor_search inv cands none = cands ∧
    ((CATEGORY_MAPPINGS.find? (fun p => p.1 = cat)).isSome →
      (enhanced_factor_search inv cands (some cat)).Perm
        (cands.map fun c =>
          { factor := c.factor
            similarity := c.similarity * 0.6 +
              match_factor_to_category c.factor cat inv * 0.4 }) ∧
      (enhanced_factor_search inv cands (some cat)).Pairwise
        bySimilarityDesc) := by
  constructor
  · rfl
  · intro h
    obtain ⟨p, hp⟩ := Option.isSome_iff_exists.mp h
    have hmem : p ∈ CATEGORY_MAPPINGS := List.mem_of_find?_eq_some hp
    have hcat : p.1 = cat := by
      have := List.find?_some hp
      simpa using this
    have hnil : ∀ q ∈ CATEGORY_MAPPINGS, q.1 ≠ ([] : PyStr) := by decide
    have hne : cat ≠ [] := hcat ▸ hnil p hmem
    have hcond : (!pyTruthyS (some cat) ||
        (CATEGORY_MAPPINGS.find? (fun q => q.1 = cat)).isNone) = false := by
      simp [pyTruthyS, List.isEmpty_iff, hne, hp]
    simp only [enhanced_factor_search, hcond, Bool.false_eq_true, if_false,
      Option.getD_some]
    exact ⟨List.perm_insertionSort bySimilarityDesc _,
      List.sorted_insertionSort bySimilarityDesc _⟩

/-- C7, witness: the detected-category branch applied at the key
"insurance" with an empty candidate list. -/
theorem c7_reranker_witness :
    (enhanced_factor_search {} [] (some (pstr "insurance"))).Perm
      (([] : List MatchCandidate).map fun c =>
        { factor := c.factor
          similarity := c.similarity * 0.6 +
            match_factor_to_category c.factor (pstr "insurance") {} * 0.4 }) ∧
    (enhanced_factor_search {} [] (some (pstr "insurance"))).Pairwise
      bySimilarityDesc :=
  (c7_reranker_passthrough_and_rescoring {} [] (pstr "insurance")).2 (by decide)

theorem upsert_of_not_mem {acc : List (PyStr × Nat)} {k : PyStr} {v : Nat}
    (h : ∀ kv ∈ acc, kv.1 ≠ k) : upsert acc k v = acc ++ [(k, v)] := by
  induction acc with
  | nil => rfl
  | cons kv rest ih =>
    have hne : kv.1 ≠ k := h kv (List.mem_cons_self kv rest)
    simp only [upsert, hne, if_false, List.cons_append, List.cons.injEq,
      true_and]
    exact ih (fun x hx => h x (List.mem_cons_of_mem kv hx))

/-- The classifier's dict-building fold, on a table with distinct
category names, collects exactly the positively scored entries in table
order. -/
theorem foldl_score_eq_filter (nz : PyStr) :
    ∀ (L : List (PyStr × CategoryProfile)) (acc : List (PyStr × Nat)),
    (L.map Prod.fst).Nodup →
    (∀ p ∈ L, ∀ kv ∈ acc, kv.1 ≠ p.1) →
    L.foldl (fun acc p =>
        if 0 < category_score nz p.2 then
          upsert acc p.1 (category_score nz p.2)
        else acc) acc =
      acc ++ (L.map (fun p => (p.1, category_score nz p.2))).filter
        (fun kv => 0 < kv.2) := by
  intro L
  induction L with
  | nil => intro acc _ _; simp
  | cons p L' ih =>
    intro acc hnd hdisj
    have hnd' : (L'.map Prod.fst).Nodup := (List.nodup_cons.mp hnd).2
    have hhead : p.1 ∉ L'.map Prod.fst := (List.nodup_cons.mp hnd).1
    simp only [List.foldl_cons]
    by_cases hs : 0 < category_score nz p.2
    · rw [if_pos hs]
      rw [upsert_of_not_mem (fun kv hkv => hdisj p (List.mem_cons_self p L') kv hkv)]
      rw [ih (acc ++ [(p.1, category_score nz p.2)]) hnd' ?_]
      · simp only [List.map_cons, List.filter_cons, decide_eq_true_eq, hs,
          if_pos, List.append_assoc, List.singleton_append]
      · intro q hq kv hkv
        rcases List.mem_append.mp hkv with hkv | hkv
        · exact hdisj q (List.mem_cons_of_mem p hq) kv hkv
        · rcases List.mem_singleton.mp hkv with rfl
          intro hcontra
          exact hhead (hcontra ▸ List.mem_map_of_mem Prod.fst hq)
    · rw [if_neg hs]
      rw [ih acc hnd' (fun q hq => hdisj q (List.mem_cons_of_mem p hq))]
      simp only [List.map_cons, List.filter_cons, decide_eq_true_eq, hs,
        if_false]

/-- The first-maximum fold of Python's `max(..., key=...)`: its result
splits the list into a strictly smaller prefix and a no-larger
suffix. -/
theorem foldl_max_decomp :
    ∀ (t : List (PyStr × Nat)) (h : PyStr × Nat),
    ∃ l1 l2, h :: t =
        l1 ++ (t.foldl (fun b x => if b.2 < x.2 then x else b) h) :: l2 ∧
      (∀ x ∈ l1, x.2 < (t.foldl (fun b x => if b.2 < x.2 then x else b) h).2) ∧
      (∀ x ∈ l2, x.2 ≤ (t.foldl (fun b x => if b.2 < x.2 then x else b) h).2) := by
  intro t
  induction t with
  | nil =>
    intro h
    exact ⟨[], [], rfl, by simp, by simp⟩
  | cons x t' ih =>
    intro h
    by_cases hlt : h.2 < x.2
    · obtain ⟨l1, l2, heq, hl1, hl2⟩ := ih x
      have hfold : ((x :: t').foldl (fun b y => if b.2 < y.2 then y else b) h) =
          t'.foldl (fun b y => if b.2 < y.2 then y else b) x := by
        simp [List.foldl_cons, hlt]
      rw [hfold]
      refine ⟨h :: l1, l2, ?_, ?_, hl2⟩
      · rw [List.cons_append, ← heq]
      · intro y hy
        rcases List.mem_cons.mp hy with rfl | hy
        · have hx : x ∈ l1 ++ (t'.foldl (fun b y => if b.2 < y.2 then y else b) x) :: l2 := by
            rw [← heq]; exact List.mem_cons_self x t'
          have hle : x.2 ≤ (t'.foldl (fun b y => if b.2 < y.2 then y else b) x).2 := by
            rcases List.mem_append.mp hx with hmem | hmem
            · exact le_of_lt (hl1 x hmem)
            · rcases List.mem_cons.mp hmem with hx2 | hmem
              · exact le_of_eq (congrArg Prod.snd hx2)
              · exact hl2 x hmem
          exact lt_of_lt_of_le hlt hle
        · exact hl1 y hy
    · obtain ⟨l1, l2, heq, hl1, hl2⟩ := ih h
      have hfold : ((x :: t').foldl (fun b y => if b.2 < y.2 then y else b) h) =
          t'.foldl (fun b y => if b.2 < y.2 then y else b) h := by
        simp [List.foldl_cons, hlt]
      rw [hfold]
      cases l1 with
      | nil =>
        simp only [List.nil_append] at heq
        have hm : t'.foldl (fun b y => if b.2 < y.2 then y else b) h = h :=
          (List.cons.injEq _ _ _ _ ▸ heq : _ ∧ _).1.symm
        have ht2 : t' = l2 := (List.cons.injEq _ _ _ _ ▸ heq : _ ∧ _).2
        refine ⟨[], x :: t', ?_, by simp, ?_⟩
        · rw [List.nil_append, hm]
        · intro y hy
          rw [hm]
          rcases List.mem_cons.mp hy with rfl | hy
          · exact le_of_not_lt hlt
          · rw [← hm]
            exact hl2 y (ht2 ▸ hy)
      | cons z l1' =>
        rw [List.cons_append] at heq
        have hz : h = z := (List.cons.injEq _ _ _ _ ▸ heq : _ ∧ _).1
        have ht' : t' = l1' ++
            (t'.foldl (fun b y => if b.2 < y.2 then y else b) h) :: l2 :=
          (List.cons.injEq _ _ _ _ ▸ heq : _ ∧ _).2
        refine ⟨h :: x :: l1', l2, ?_, ?_, hl2⟩
        · rw [List.cons_append, List.cons_append, ← ht']
        · intro y hy
          have hzlt := hl1 z (List.mem_cons_self z l1')
          rcases List.mem_cons.mp hy with rfl | hy
          · exact hz.symm ▸ hzlt
          · rcases List.mem_cons.mp hy with rfl | hy
            · calc y.2 ≤ h.2 := le_of_not_lt hlt
                _ < _ := hz.symm ▸ hzlt
            · exact hl1 y (List.mem_cons_of_mem z hy)

theorem filter_eq_append_decomp {α : Type} {p : α → Bool} :
    ∀ {L l1 l2 : List α} {b : α}, L.filter p = l1 ++ b :: l2 →
    ∃ L1 L2, L = L1 ++ b :: L2 ∧ L1.filter p = l1 ∧ L2.filter p = l2 := by
  intro L
  induction L with
  | nil =>
    intro l1 l2 b h
    simp only [List.filter_nil] at h
    exact absurd h.symm (List.append_ne_nil_of_right_ne_nil l1 (by simp))
  | cons x L' ih =>
    intro l1 l2 b h
    by_cases hx : p x = true
    · rw [List.filter_cons_of_pos hx] at h
      cases l1 with
      | nil =>
        simp only [List.nil_append, List.cons.injEq] at h
        obtain ⟨rfl, hrest⟩ := h
        exact ⟨[], L', rfl, rfl, hrest⟩
      | cons y l1' =>
        simp only [List.cons_append, List.cons.injEq] at h
        obtain ⟨rfl, hrest⟩ := h
        obtain ⟨L1, L2, rfl, hf1, hf2⟩ := ih hrest
        exact ⟨x :: L1, L2, rfl, by rw [List.filter_cons_of_pos hx, hf1], hf2⟩
    · rw [List.filter_cons_of_neg (by simpa using hx)] at h
      obtain ⟨L1, L2, rfl, hf1, hf2⟩ := ih h
      refine ⟨x :: L1, L2, rfl, ?_, hf2⟩
      rw [List.filter_cons_of_neg (by simpa using hx), hf1]

/-- C8: the category classifier returns null exactly when every profile
scores zero against the invoice; and whenever it returns a category,
that category's table entry scores positively, no entry scores more,
and every entry before it in table order scores strictly less (ties
resolved by iteration order, first seen wins). -/
theorem c8_detect_category (inv : InvoiceRecord) :
    (detect_invoice_category inv = none ↔
      ∀ p ∈ CATEGORY_MAPPINGS, invoice_category_score inv p.2 = 0) ∧
    (∀ c, detect_invoice_category inv = some c →
      ∃ T1 p T2, CATEGORY_MAPPINGS = T1 ++ p :: T2 ∧ p.1 = c ∧
        0 < invoice_category_score inv p.2 ∧
        (∀ q ∈ T1, invoice_category_score inv q.2 <
          invoice_category_score inv p.2) ∧
        (∀ q ∈ T2, invoice_category_score inv q.2 ≤
          invoice_category_score inv p.2)) := by
  by_cases hemp : (searchable_of inv).isEmpty = true
  · have hse : searchable_of inv = [] := by simpa using hemp
    have hdet : detect_invoice_category inv = none := by
      simp [detect_invoice_category, hemp]
    have hz : ∀ p ∈ CATEGORY_MAPPINGS, invoice_category_score inv p.2 = 0 := by
      unfold invoice_category_score
      rw [hse]
      decide
    refine ⟨iff_of_true hdet hz, fun c hc => ?_⟩
    rw [hdet] at hc
    exact Option.noConfusion hc
  · have hfold := foldl_score_eq_filter (normalise_text (searchable_of inv))
      CATEGORY_MAPPINGS [] (by decide) (by simp)
    have hscore : ∀ p : PyStr × CategoryProfile,
        invoice_category_score inv p.2 =
          category_score (normalise_text (searchable_of inv)) p.2 :=
      fun p => rfl
    constructor
    · -- none iff all scores zero
      simp only [detect_invoice_category, hemp, Bool.false_eq_true, if_false,
        hfold, List.nil_append]
      cases hflt : (CATEGORY_MAPPINGS.map (fun p =>
          (p.1, category_score (normalise_text (searchable_of inv))
            p.2))).filter (fun kv => 0 < kv.2) with
      | nil =>
        refine iff_of_true rfl ?_
        intro p hp
        have hall := List.filter_eq_nil_iff.mp hflt
        have hmem : (p.1, category_score (normalise_text (searchable_of inv))
            p.2) ∈ CATEGORY_MAPPINGS.map (fun p =>
              (p.1, category_score (normalise_text (searchable_of inv)) p.2)) :=
          List.mem_map_of_mem _ hp
        have hnp := hall _ hmem
        simp only [decide_eq_true_eq] at hnp
        rw [hscore p]
        omega
      | cons h t =>
        refine iff_of_false (by simp) ?_
        intro hz
        have hmem : h ∈ (CATEGORY_MAPPINGS.map (fun p =>
            (p.1, category_score (normalise_text (searchable_of inv))
              p.2))).filter (fun kv => 0 < kv.2) := by
          rw [hflt]; exact List.mem_cons_self h t
        have hpos := List.of_mem_filter hmem
        obtain ⟨p, hp, hgp⟩ := List.mem_map.mp (List.mem_of_mem_filter hmem)
        have hzero := hz p hp
        rw [hscore p] at hzero
        rw [← hgp] at hpos
        simp [hzero] at hpos
    · -- some c implies the first-maximum decomposition
      intro c hc
      simp only [detect_invoice_category, hemp, Bool.false_eq_true, if_false,
        hfold, List.nil_append] at hc
      cases hflt : (CATEGORY_MAPPINGS.map (fun p =>
          (p.1, category_score (normalise_text (searchable_of inv))
            p.2))).filter (fun kv => 0 < kv.2) with
      | nil =>
        rw [hflt] at hc
        exact Option.noConfusion hc
      | cons h t =>
        rw [hflt] at hc
        simp only [Option.some.injEq] at hc
        obtain ⟨l1, l2, heq, hl1, hl2⟩ := foldl_max_decomp t h
        have hfilt2 : (CATEGORY_MAPPINGS.map (fun p =>
            (p.1, category_score (normalise_text (searchable_of inv))
              p.2))).filter (fun kv => 0 < kv.2) =
            l1 ++ (t.foldl (fun b x => if b.2 < x.2 then x else b) h) :: l2 := by
          rw [hflt, heq]
        obtain ⟨S1, S2, hmapEq, hf1, hf2⟩ := filter_eq_append_decomp hfilt2
        obtain ⟨T1, rest, htab, hm1, hm2⟩ := List.map_eq_append_iff.mp hmapEq
        obtain ⟨p, T2, hrest, hgp, hm3⟩ := List.map_eq_cons_iff.mp hm2
        have hmemMax : (t.foldl (fun b x => if b.2 < x.2 then x else b) h) ∈
            (CATEGORY_MAPPINGS.map (fun p =>
              (p.1, category_score (normalise_text (searchable_of inv))
                p.2))).filter (fun kv => 0 < kv.2) := by
          rw [hfilt2]
          exact List.mem_append_right l1 (List.mem_cons_self _ l2)
        have hposMax := List.of_mem_filter hmemMax
        have hsnd : category_score (normalise_text (searchable_of inv)) p.2 =
            (t.foldl (fun b x => if b.2 < x.2 then x else b) h).2 := by
          rw [← hgp]
        have hfst : p.1 =
            (t.foldl (fun b x => if b.2 < x.2 then x else b) h).1 := by
          rw [← hgp]
        refine ⟨T1, p, T2, by rw [htab, hrest], by rw [hfst, hc], ?_, ?_, ?_⟩
        · rw [hscore p, hsnd]
          simpa using hposMax
        · intro q hq
          rw [hscore q, hscore p, hsnd]
          by_cases hqpos :
              0 < category_score (normalise_text (searchable_of inv)) q.2
          · have hmemS1 : (q.1, category_score (normalise_text
                (searchable_of inv)) q.2) ∈ S1 := by
              rw [← hm1]
              exact List.mem_map_of_mem _ hq
            have hmeml1 : (q.1, category_score (normalise_text
                (searchable_of inv)) q.2) ∈ l1 := by
              rw [← hf1]
              exact List.mem_filter.mpr ⟨hmemS1, by simpa using hqpos⟩
            exact hl1 _ hmeml1
          · have hle : category_score (normalise_text (searchable_of inv))
                q.2 = 0 := by omega
            rw [hle]
            have := hposMax
            simpa using this
        · intro q hq
          rw [hscore q, hscore p, hsnd]
          by_cases hqpos :
              0 < category_score (normalise_text (searchable_of inv)) q.2
          · have hmemS2 : (q.1, category_score (normalise_text
                (searchable_of inv)) q.2) ∈ S2 := by
              rw [← hm3]
              exact List.mem_map_of_mem _ hq
            have hmeml2 : (q.1, category_score (normalise_text
                (searchable_of inv)) q.2) ∈ l2 := by
              rw [← hf2]
              exact List.mem_filter.mpr ⟨hmemS2, by simpa using hqpos⟩
            exact hl2 _ hmeml2
          · omega

/-- C8, witness: an invoice typed "flight" by "avion" is classified as
`transportation_air`, and that table entry is the first-seen maximum. -/
theorem c8_detect_category_witness :
    ∃ T1 p T2, CATEGORY_MAPPINGS = T1 ++ p :: T2 ∧
      p.1 = pstr "transportation_air" ∧
      0 < invoice_category_score
        { invoice_type := some (pstr "flight")
          transportation_type := some (pstr "avion") } p.2 ∧
      (∀ q ∈ T1, invoice_category_score
          { invoice_type := some (pstr "flight")
            transportation_type := some (pstr "avion") } q.2 <
        invoice_category_score
          { invoice_type := some (pstr "flight")
            transportation_type := some (pstr "avion") } p.2) ∧
      (∀ q ∈ T2, invoice_category_score
          { invoice_type := some (pstr "flight")
            transportation_type := some (pstr "avion") } q.2 ≤
        invoice_category_score
          { invoice_type := some (pstr "flight")
            transportation_type := some (pstr "avion") } p.2) :=
  (c8_detect_category
    { invoice_type := some (pstr "flight")
      transportation_type := some (pstr "avion") }).2
    (pstr "transportation_air") (by decide)
